import Mathlib

/-!
Shallow embedding of the llm-analysis server core, verified against its
natural-language specification.

The embedding covers:
* `DatabaseService` task-graph store (`createTask`, `deleteTask`,
  `setTaskRelations`) including the `TASK-NNNN` code generator;
* the `TasksService.create` input validation layer;
* the `LangchainService.generateTaskAwareReply` bounded tool-calling loop
  and `loadRecentHistory`;
* `MessagesService.sendMessage`.

TypeScript strings are Lean `String`s, SQLite rows are Lean structures, and
async functions that can throw are modelled with `Except String`.
-/

/-! ### Decimal rendering and SQLite integer casting

`String(n)` in TypeScript renders a natural number in decimal.  We use a
fuel-based structural recursion so the kernel can evaluate it. -/

def digitChar (d : Nat) : Char := Char.ofNat (48 + d)

def natToDigitsAux : Nat → Nat → List Char
  | 0, _ => []
  | fuel + 1, n =>
    if n < 10 then [digitChar n]
    else natToDigitsAux fuel (n / 10) ++ [digitChar (n % 10)]

/-- Decimal digits of `n`, most significant first (models `String(n)`). -/
def natToDigits (n : Nat) : List Char := natToDigitsAux (n + 1) n

/-- Accumulating parse of a leading run of decimal digits; models SQLite
`CAST(text AS INTEGER)` on a non-negative digit string (trailing non-digit
characters are ignored, no digits yields the accumulator). -/
def leadingNatAux : Nat → List Char → Nat
  | acc, [] => acc
  | acc, c :: rest =>
    if c.isDigit then leadingNatAux (acc * 10 + (c.toNat - 48)) rest else acc

def leadingNat (cs : List Char) : Nat := leadingNatAux 0 cs

/-- Characters strictly after the first `'-'` (models
`substr(code, instr(code, '-') + 1)` when a dash is present). -/
def dropThroughDash : List Char → List Char
  | [] => []
  | c :: rest => if c = '-' then rest else dropThroughDash rest

/-! ### The task-graph store (`DatabaseService`) -/

/-- The characters of the `'TASK-'` code prefix. -/
def taskCodeHead : List Char := ['T', 'A', 'S', 'K', '-']

/-- `code LIKE 'TASK-%'` — prefix test on the code's characters. -/
def isPref : List Char → List Char → Bool
  | [], _ => true
  | _ :: _, [] => false
  | a :: as, b :: bs => a = b && isPref as bs

def likeTASK (code : String) : Bool := isPref taskCodeHead code.data

/-- `CAST(substr(code, instr(code, '-') + 1) AS INTEGER)`: when the code has
no dash, `instr` is 0 and `substr(code, 1)` is the whole string. -/
def codeSuffix (code : String) : Nat :=
  if code.data.contains '-' then leadingNat (dropThroughDash code.data)
  else leadingNat code.data

/-- `String(n).padStart(4, '0')`. -/
def pad4Chars (n : Nat) : List Char :=
  List.replicate (4 - (natToDigits n).length) '0' ++ natToDigits n

/-- The display code issued for numeric suffix `n`. -/
def mkCode (n : Nat) : String := ⟨taskCodeHead ++ pad4Chars n⟩

/-- A row of the `tasks` table.  The SQLite CHECK constraints on `type` and
`status` are not needed by any claim, so both are plain strings; `createdAt`
records creation order (the `created_at DATETIME` column). -/
structure TaskRow where
  id : Nat
  type : String
  title : String
  description : String
  status : String
  code : String
  createdAt : Nat
  deriving DecidableEq, Repr

/-- Field values supplied to `DatabaseService.createTask`. -/
structure TaskFields where
  type : String
  title : String
  description : String
  status : String
  deriving DecidableEq, Repr

/-- The store: `tasks` and `task_links` tables plus the AUTOINCREMENT
counter (SQLite AUTOINCREMENT ids are never reused).  A link `(p, c)` is a
row with `parent_id = p`, `child_id = c`. -/
structure Store where
  tasks : List TaskRow
  links : List (Nat × Nat)
  nextId : Nat
  deriving DecidableEq, Repr

def emptyStore : Store := { tasks := [], links := [], nextId := 1 }

/-- `SELECT COALESCE(MAX(CAST(substr(code, instr(code, '-') + 1) AS
INTEGER)), 0) FROM tasks WHERE code LIKE 'TASK-%'` — the maximum numeric
suffix among the *currently stored* rows. -/
def maxSuffix (tasks : List TaskRow) : Nat :=
  tasks.foldl
    (fun acc r => if likeTASK r.code then Nat.max acc (codeSuffix r.code) else acc) 0

/-- `DatabaseService.createTask`: computes the next code from the stored
rows, inserts the row, and returns it (with empty `parents`/`children`). -/
def createTask (st : Store) (t : TaskFields) : Store × TaskRow :=
  let n := maxSuffix st.tasks + 1
  let row : TaskRow :=
    { id := st.nextId, type := t.type, title := t.title,
      description := t.description, status := t.status,
      code := mkCode n, createdAt := st.nextId }
  ({ tasks := st.tasks ++ [row], links := st.links, nextId := st.nextId + 1 }, row)

/-- `DatabaseService.deleteTask`: `throw new Error('Task not found')` when
the id is absent; otherwise delete every link where the id appears as
parent or child, then the task row. -/
def deleteTask (st : Store) (id : Nat) : Except String Store :=
  match st.tasks.find? (fun r => r.id == id) with
  | none => Except.error "Task not found"
  | some _ =>
    Except.ok
      { tasks := st.tasks.filter (fun r => ¬ r.id = id),
        links := st.links.filter (fun e => ¬ e.1 = id ∧ ¬ e.2 = id),
        nextId := st.nextId }

/-- `INSERT OR IGNORE INTO task_links` — a no-op when the (parent, child)
primary key is already present. -/
def insertIgnore (links : List (Nat × Nat)) (e : Nat × Nat) : List (Nat × Nat) :=
  if e ∈ links then links else links ++ [e]

/-- `DatabaseService.setTaskRelations`: when `parents` is supplied, delete
all links with `child_id = taskId` then insert `(p, taskId)` for each
supplied `p`, skipping self-references; symmetrically for `children`.
No existence check is performed on `taskId` or the referenced ids. -/
def setTaskRelations (st : Store) (taskId : Nat)
    (parents children : Option (List Nat)) : Store :=
  let links1 :=
    match parents with
    | none => st.links
    | some ps =>
      ps.foldl (fun ls p => if p = taskId then ls else insertIgnore ls (p, taskId))
        (st.links.filter (fun e => ¬ e.2 = taskId))
  let links2 :=
    match children with
    | none => links1
    | some cs =>
      cs.foldl (fun ls c => if c = taskId then ls else insertIgnore ls (taskId, c))
        (links1.filter (fun e => ¬ e.1 = taskId))
  { st with links := links2 }

/-- Whether some stored task has the given id. -/
def taskExists (st : Store) (id : Nat) : Bool :=
  st.tasks.any (fun r => r.id == id)

/-! ### Operation sequences over the store (for the code-uniqueness claim) -/

inductive Op where
  | create (t : TaskFields)
  | delete (id : Nat)
  deriving DecidableEq, Repr

/-- Apply one operation; a create reports the issued code.  A failing
delete leaves the store unchanged (the thrown error is handled by the
caller). -/
def applyOp (st : Store) (op : Op) : Store × Option String :=
  match op with
  | Op.create t =>
    let (st', row) := createTask st t
    (st', some row.code)
  | Op.delete id =>
    match deleteTask st id with
    | Except.ok st' => (st', none)
    | Except.error _ => (st, none)

/-- Run a sequence of operations, collecting the issued codes in order. -/
def runOps : Store → List Op → Store × List String
  | st, [] => (st, [])
  | st, op :: rest =>
    let (st', issued) := applyOp st op
    let (stF, codes) := runOps st' rest
    (stF, issued.toList ++ codes)

/-- A fixed create payload used in concrete scenarios. -/
def samplePayload : TaskFields :=
  { type := "task", title := "Spec slots", description := "Define slot model",
    status := "backlog" }

/-! ### JavaScript string trimming -/

/-- JavaScript whitespace for `String.prototype.trim` (the common ASCII
subset: space, tab, and line terminators). -/
def jsWhitespace (c : Char) : Bool :=
  c = ' ' || c = '\t' || c = '\n' || c = '\r' || c = '\x0b' || c = '\x0c'

/-- `s.trim()`: strip leading and trailing whitespace. -/
def jsTrim (s : String) : String :=
  ⟨((s.data.dropWhile jsWhitespace).reverse.dropWhile jsWhitespace).reverse⟩

/-! ### Structured model content and `JSON.stringify` -/

/-- JSON values, for non-string model content. -/
inductive Json where
  | null : Json
  | bool (b : Bool) : Json
  | num (n : Int) : Json
  | str (s : String) : Json
  | arr (xs : List Json) : Json
  | obj (fields : List (String × Json)) : Json

def intToString (n : Int) : String :=
  if n < 0 then "-" ++ ⟨natToDigits n.natAbs⟩ else ⟨natToDigits n.natAbs⟩

def jsonEscapeChar (c : Char) : String :=
  if c = '"' then "\\\"" else if c = '\\' then "\\\\" else String.singleton c

def jsonEscape (s : String) : String :=
  s.data.foldl (fun acc c => acc ++ jsonEscapeChar c) ""

mutual

/-- Deterministic serialization of a `Json` value (models `JSON.stringify`
restricted to string-escaping of quotes and backslashes). -/
def jsonStringify : Json → String
  | Json.null => "null"
  | Json.bool true => "true"
  | Json.bool false => "false"
  | Json.num n => intToString n
  | Json.str s => "\"" ++ jsonEscape s ++ "\""
  | Json.arr xs => "[" ++ jsonStringifyArr xs ++ "]"
  | Json.obj fs => "\x7b" ++ jsonStringifyObj fs ++ "\x7d"

def jsonStringifyArr : List Json → String
  | [] => ""
  | [x] => jsonStringify x
  | x :: y :: rest => jsonStringify x ++ "," ++ jsonStringifyArr (y :: rest)

def jsonStringifyObj : List (String × Json) → String
  | [] => ""
  | [(k, v)] => "\"" ++ jsonEscape k ++ "\":" ++ jsonStringify v
  | (k, v) :: f :: rest =>
    "\"" ++ jsonEscape k ++ "\":" ++ jsonStringify v ++ "," ++ jsonStringifyObj (f :: rest)

end

/-! ### The agent orchestration loop (`LangchainService.generateTaskAwareReply`) -/

/-- An `AIMessage` content is either a plain string or structured data. -/
inductive Content where
  | str (s : String) : Content
  | structured (j : Json) : Content

/-- A tool call requested by the model: optional call id, tool name, and
arguments (modelled as a string-keyed record). -/
structure ToolCall where
  id : Option String
  name : String
  args : List (String × String)

/-- A model response: content plus the requested tool calls. -/
structure AIResp where
  content : Content
  tool_calls : List ToolCall

/-- The message kinds appearing in the running sequence. -/
inductive BaseMsg where
  | system (content : String) : BaseMsg
  | human (content : String) : BaseMsg
  | ai (response : AIResp) : BaseMsg
  | tool (content : String) (tool_call_id : String) : BaseMsg

/-- A registered tool: its name and its handler.  A handler that throws is
modelled by `Except.error` carrying the thrown error's message. -/
structure ToolDef where
  name : String
  func : List (String × String) → Except String String

/-- The model, as a stub: a function from the running message sequence to
the next `AIMessage`. -/
def ModelStub : Type := List BaseMsg → AIResp

/-- `typeof content === 'string' ? content : JSON.stringify(content)`. -/
def contentText : Content → String
  | Content.str s => s
  | Content.structured j => jsonStringify j

/-- Per-call tool execution (loop body, per `call` of `response.tool_calls`):
look the tool up by name; absent tools and throwing handlers become
tool-result messages, tagged with `call.id ?? 'tool-call'`. -/
def execToolCall (tools : List ToolDef) (call : ToolCall) : BaseMsg :=
  let toolCallId := call.id.getD "tool-call"
  match tools.find? (fun t => t.name == call.name) with
  | none => BaseMsg.tool ("Tool " ++ call.name ++ " is not available") toolCallId
  | some t =>
    match t.func call.args with
    | Except.ok result => BaseMsg.tool result toolCallId
    | Except.error e => BaseMsg.tool ("Tool error: " ++ e) toolCallId

/-- The tool-result messages appended for one response, in request order. -/
def toolResults (tools : List ToolDef) (calls : List ToolCall) : List BaseMsg :=
  calls.map (execToolCall tools)

/-- The fixed fallback returned when the step budget is exhausted. -/
def fallbackReply : String := "Could not complete the request with available tools."

/-- The `for (let step = 0; step < 6; step += 1)` loop, with the remaining
step budget as fuel.  Returns the reply together with the number of model
invocations performed. -/
def agentLoopAux (model : ModelStub) (tools : List ToolDef) :
    Nat → List BaseMsg → String × Nat
  | 0, _ => (fallbackReply, 0)
  | fuel + 1, msgs =>
    let response := model msgs
    let msgs1 := msgs ++ [BaseMsg.ai response]
    if response.tool_calls.isEmpty then
      (contentText response.content, 1)
    else
      let next := agentLoopAux model tools fuel
        (msgs1 ++ toolResults tools response.tool_calls)
      (next.1, next.2 + 1)

/-- The system instruction sent as the first message. -/
def systemInstruction : String :=
  "Ты - LLM-агент, выполняющий функцию сбора и уточнения требований к автоматизации.\n\nТвоя единственная задача - пошагово собирать информацию от пользователя.\nТы НЕ формируешь решения, требования, диаграммы, выводы или рекомендации.\nТы НЕ объясняешь пользователю, что и зачем будет сделано.\n\nПравила работы:\n1. Ты работаешь в режиме диалога и задаёшь ТОЛЬКО уточняющие вопросы.\n2. За один шаг ты задаёшь не более 1–3 логически связанных вопросов.\n3. Каждый вопрос должен быть направлен на уточнение фактов, а не предположений.\n4. Если информации достаточно по текущему блоку — переходи к следующему блоку.\n5. Не интерпретируй ответы пользователя вслух.\n6. Не суммируй и не пересказывай полученную информацию пользователю.\n7. Не предлагай вариантов решений, автоматизации или архитектуры.\n\nОбработка информации:\n— после каждого ответа пользователя извлекай факты;\n— сохраняй извлечённую информацию во внутреннее хранилище;\n— структурируй данные по категориям (процесс, роли, данные, события, проблемы, ограничения);\n- информация должна быть пригодна для последующего векторного поиска.\n\nСтиль общения:\n— нейтральный, деловой;\n— короткие, понятные вопросы;\n— без терминов, если пользователь их не использовал.\n\nПоследовательность сбора информации:\n1. Цель автоматизации.\n2. Описание текущего процесса («как есть»).\n3. Участники процесса и их действия.\n4. Входные и выходные данные.\n5. Проблемы и узкие места.\n6. Ограничения и допущения.\n7. Критерии завершённости процесса (когда считается, что всё выполнено).\n\nЕсли пользователь уходит в рассуждения - мягко возвращай его к фактам.\n"

/-- `LangchainService.generateTaskAwareReply`: system instruction, loaded
history, new user message, then up to 6 loop steps. -/
def generateTaskAwareReply (model : ModelStub) (tools : List ToolDef)
    (history : List BaseMsg) (input : String) : String × Nat :=
  agentLoopAux model tools 6
    ([BaseMsg.system systemInstruction] ++ history ++ [BaseMsg.human input])

/-! ### The conversation history loader -/

/-- A row of the `messages` table; rows are kept in creation order. -/
structure MsgRow where
  id : Nat
  userText : String
  botReply : String
  deriving DecidableEq, Repr

/-- `DatabaseService.getRecentMessages(limit)`: `SELECT … ORDER BY
created_at DESC LIMIT ?` followed by `.reverse()` — the most recent
`limit` rows, oldest first.  The db read itself may fail. -/
def getRecentMessages (db : Except String (List MsgRow)) (limit : Nat) :
    Except String (List MsgRow) :=
  db.map (fun store => (store.reverse.take limit).reverse)

/-- `LangchainService.loadRecentHistory`: expand each recent turn into a
(user message, assistant message) pair; any read failure is caught and
yields the empty history. -/
def loadRecentHistory (db : Except String (List MsgRow)) : List BaseMsg :=
  match getRecentMessages db 10 with
  | Except.error _ => []
  | Except.ok recent =>
    recent.foldl
      (fun h item =>
        h ++ [BaseMsg.human item.userText, BaseMsg.ai ⟨Content.str item.botReply, []⟩])
      []

/-! ### `TasksService.create` input validation -/

def TASK_TYPES : List String := ["epic", "task", "subtask"]

def TASK_STATUSES : List String := ["backlog", "in_progress", "done"]

/-- The request payload of `TasksService.create` (this revision accepts no
title). -/
structure CreatePayload where
  type : Option String
  description : Option String
  status : Option String
  deriving DecidableEq, Repr

/-- JavaScript falsiness of an optional string: `undefined` or `''`. -/
def isFalsyStr : Option String → Bool
  | none => true
  | some s => s == ""

/-- `TasksService.parseType`. -/
def parseType (type : Option String) : Except String String :=
  if isFalsyStr type then Except.error "Task type is required"
  else
    let t := type.getD ""
    if TASK_TYPES.contains t then Except.ok t
    else
      Except.error
        ("Unknown task type: " ++ t ++ ". Allowed: " ++ String.intercalate ", " TASK_TYPES)

/-- `TasksService.parseStatus`. -/
def parseStatus (status fallback : Option String) : Except String String :=
  if isFalsyStr status then
    if isFalsyStr fallback then Except.error "Task status is required"
    else Except.ok (fallback.getD "")
  else
    let s := status.getD ""
    if TASK_STATUSES.contains s then Except.ok s
    else
      Except.error
        ("Unknown task status: " ++ s ++ ". Allowed: " ++
          String.intercalate ", " TASK_STATUSES)

/-- `TasksService.parseDescription`: trim, then reject falsy. -/
def parseDescription (description : Option String) : Except String String :=
  match description with
  | none => Except.error "Task description is required"
  | some s =>
    let value := jsTrim s
    if value == "" then Except.error "Task description is required"
    else Except.ok value

/-- The validated field set `TasksService.create` passes to the store. -/
structure ValidatedCreate where
  type : String
  description : String
  status : String
  deriving DecidableEq, Repr

/-- `TasksService.create`'s validation phase: parse type, description and
status (status defaulting to `'backlog'`) before delegating to
`DatabaseService.createTask`. -/
def tasksServiceCreate (p : CreatePayload) : Except String ValidatedCreate := do
  let t ← parseType p.type
  let d ← parseDescription p.description
  let s ← parseStatus p.status (some "backlog")
  pure { type := t, description := d, status := s }

/-! ### `MessagesService.sendMessage` -/

/-- A saved conversation turn. -/
structure SavedTurn where
  id : Nat
  userText : String
  botReply : String
  deriving DecidableEq, Repr

/-- `MessagesService.sendMessage`: reject blank input with a client error
before generating; persist the turn only after a reply was generated.  The
reply generator `gen` stands for `generateTaskAwareReply`; its failure
(`Except.error`) propagates.  The first component of the result is the
message store after the call. -/
def sendMessage (gen : String → Except String String)
    (store : List SavedTurn) (text : Option String) :
    List SavedTurn × Except String SavedTurn :=
  let userText := text.getD ""
  let trimmed := jsTrim userText
  if trimmed == "" then (store, Except.error "Message text is required")
  else
    match gen userText with
    | Except.error e => (store, Except.error e)
    | Except.ok botReply =>
      let saved : SavedTurn :=
        { id := store.length + 1, userText := userText, botReply := botReply }
      (store ++ [saved], Except.ok saved)

/-! ### Concrete stubs and fixtures used by witnesses and counterexamples -/

/-- A model stub that requests a (valid) `list_tasks` call on every step. -/
def alwaysToolModel : ModelStub :=
  fun _ => ⟨Content.str "", [⟨some "call-1", "list_tasks", []⟩]⟩

/-- A registry holding just a trivially succeeding `list_tasks` tool. -/
def listOnlyTools : List ToolDef :=
  [⟨"list_tasks", fun _ => Except.ok "No tasks found for the given filter."⟩]

/-- A model stub that immediately answers with plain text. -/
def plainTextModel : ModelStub := fun _ => ⟨Content.str "hello", []⟩

/-- A model stub that immediately answers with structured content. -/
def structuredModel : ModelStub :=
  fun _ => ⟨Content.structured (Json.obj [("a", Json.num 1)]), []⟩

/-- A tool whose handler always throws. -/
def throwingTool : ToolDef := ⟨"boom", fun _ => Except.error "kaboom"⟩

/-- A two-task fixture store with links 1→2, 2→1 and 2→3. -/
def fixtureStore : Store :=
  { tasks :=
      [ { id := 1, type := "task", title := "A", description := "a",
          status := "backlog", code := "TASK-0001", createdAt := 1 },
        { id := 2, type := "task", title := "B", description := "b",
          status := "backlog", code := "TASK-0002", createdAt := 2 },
        { id := 3, type := "task", title := "C", description := "c",
          status := "backlog", code := "TASK-0003", createdAt := 3 } ],
    links := [(1, 2), (2, 1), (2, 3)],
    nextId := 4 }

/-- `fixtureStore` after `deleteTask 1`. -/
def fixtureStoreDel1 : Store :=
  { tasks :=
      [ { id := 2, type := "task", title := "B", description := "b",
          status := "backlog", code := "TASK-0002", createdAt := 2 },
        { id := 3, type := "task", title := "C", description := "c",
          status := "backlog", code := "TASK-0003", createdAt := 3 } ],
    links := [(2, 3)],
    nextId := 4 }

/-- A reply generator stub that always succeeds. -/
def okGen : String → Except String String := fun _ => Except.ok "r"

/-- A reply generator stub that always fails. -/
def errGen : String → Except String String := fun _ => Except.error "boom"

/-! ## Helper lemmas

Decimal digits: rendering with `natToDigits` and re-parsing with
`leadingNat` are mutually inverse, so `codeSuffix (mkCode n) = n`. -/

theorem digitChar_isDigit (d : Nat) (h : d < 10) : (digitChar d).isDigit = true := by
  interval_cases d <;> decide

theorem digitChar_toNat_sub (d : Nat) (h : d < 10) : (digitChar d).toNat - 48 = d := by
  interval_cases d <;> decide

theorem natToDigitsAux_isDigit :
    ∀ fuel n, ∀ c ∈ natToDigitsAux fuel n, c.isDigit = true := by
  intro fuel
  induction fuel with
  | zero => intro n c hc; simp [natToDigitsAux] at hc
  | succ fuel ih =>
    intro n c hc
    by_cases h10 : n < 10
    · simp only [natToDigitsAux, if_pos h10, List.mem_singleton] at hc
      subst hc
      exact digitChar_isDigit n h10
    · simp only [natToDigitsAux, if_neg h10, List.mem_append, List.mem_singleton] at hc
      rcases hc with hc | hc
      · exact ih (n / 10) c hc
      · subst hc
        exact digitChar_isDigit _ (Nat.mod_lt _ (by omega))

theorem leadingNatAux_append (xs ys : List Char)
    (hdig : ∀ c ∈ xs, c.isDigit = true) (acc : Nat) :
    leadingNatAux acc (xs ++ ys) = leadingNatAux (leadingNatAux acc xs) ys := by
  induction xs generalizing acc with
  | nil => rfl
  | cons c rest ih =>
    have hc : c.isDigit = true := hdig c (List.mem_cons_self _ _)
    simp only [List.cons_append, leadingNatAux, hc, if_pos]
    exact ih (fun d hd => hdig d (List.mem_cons_of_mem _ hd)) _

theorem leadingNatAux_natToDigitsAux :
    ∀ fuel n, n < fuel → ∀ acc,
      leadingNatAux acc (natToDigitsAux fuel n) =
        acc * 10 ^ (natToDigitsAux fuel n).length + n := by
  intro fuel
  induction fuel with
  | zero => intro n hn; omega
  | succ fuel ih =>
    intro n _ acc
    by_cases h10 : n < 10
    · have hdig := digitChar_isDigit n h10
      have htn := digitChar_toNat_sub n h10
      simp only [natToDigitsAux, if_pos h10, leadingNatAux, hdig, if_pos, htn,
        List.length_singleton, pow_one]
    · have hrec : n / 10 < fuel := by omega
      have hmod : n % 10 < 10 := Nat.mod_lt _ (by omega)
      have hdig := digitChar_isDigit _ hmod
      have htn := digitChar_toNat_sub _ hmod
      simp only [natToDigitsAux, if_neg h10]
      rw [leadingNatAux_append _ _ (natToDigitsAux_isDigit fuel (n / 10)) acc]
      rw [ih (n / 10) hrec acc]
      simp only [leadingNatAux, hdig, if_pos, htn, List.length_append,
        List.length_singleton]
      rw [pow_succ]
      generalize (10 : Nat) ^ (natToDigitsAux fuel (n / 10)).length = m
      have h1 : (acc * m + n / 10) * 10 + n % 10 =
          acc * (m * 10) + (n / 10 * 10 + n % 10) := by ring
      have h2 : n / 10 * 10 + n % 10 = n := by omega
      rw [h1, h2]

theorem leadingNat_natToDigits (n : Nat) : leadingNat (natToDigits n) = n := by
  have h := leadingNatAux_natToDigitsAux (n + 1) n (by omega) 0
  simpa [leadingNat, natToDigits] using h

theorem leadingNatAux_zero_replicate (k : Nat) (cs : List Char) :
    leadingNatAux 0 (List.replicate k '0' ++ cs) = leadingNatAux 0 cs := by
  induction k with
  | zero => rfl
  | succ k ih =>
    have h0 : ('0' : Char).isDigit = true := by decide
    simpa [List.replicate_succ, leadingNatAux, h0] using ih

theorem mkCode_data (n : Nat) : (mkCode n).data = taskCodeHead ++ pad4Chars n := rfl

theorem dropThroughDash_head (rest : List Char) :
    dropThroughDash (taskCodeHead ++ rest) = rest := by
  simp [taskCodeHead, dropThroughDash]

theorem mkCode_contains_dash (n : Nat) : (mkCode n).data.contains '-' = true := by
  rw [mkCode_data]
  simp [taskCodeHead, List.contains]

/-- Re-parsing an issued code recovers its numeric suffix. -/
theorem codeSuffix_mkCode (n : Nat) : codeSuffix (mkCode n) = n := by
  have hc : (mkCode n).data.contains '-' = true := mkCode_contains_dash n
  unfold codeSuffix
  rw [if_pos hc, mkCode_data, dropThroughDash_head, pad4Chars, leadingNat,
    leadingNatAux_zero_replicate]
  simpa [leadingNat] using leadingNat_natToDigits n

theorem isPref_append (xs ys : List Char) : isPref xs (xs ++ ys) = true := by
  induction xs with
  | nil => rfl
  | cons c rest ih => simp [isPref, ih]

/-- Issued codes match `LIKE 'TASK-%'`. -/
theorem likeTASK_mkCode (n : Nat) : likeTASK (mkCode n) = true := by
  rw [likeTASK, mkCode_data]
  exact isPref_append _ _

theorem maxSuffix_foldl_ge_init (l : List TaskRow) :
    ∀ acc, acc ≤ l.foldl
      (fun acc r => if likeTASK r.code then Nat.max acc (codeSuffix r.code) else acc) acc := by
  induction l with
  | nil => intro acc; exact Nat.le_refl _
  | cons r rest ih =>
    intro acc
    refine Nat.le_trans ?_ (ih _)
    by_cases h : likeTASK r.code
    · simp [h, Nat.le_max_left]
    · simp [h]

theorem codeSuffix_le_foldl (l : List TaskRow) :
    ∀ acc r, r ∈ l → likeTASK r.code = true →
      codeSuffix r.code ≤ l.foldl
        (fun acc r => if likeTASK r.code then Nat.max acc (codeSuffix r.code) else acc) acc := by
  induction l with
  | nil => intro _ r hr; cases hr
  | cons t rest ih =>
    intro acc r hr hlike
    rcases List.mem_cons.mp hr with h | h
    · subst h
      simp only [List.foldl_cons, hlike, if_pos]
      exact Nat.le_trans (Nat.le_max_right _ _) (maxSuffix_foldl_ge_init rest _)
    · simp only [List.foldl_cons]
      exact ih _ r h hlike

/-- Every stored `TASK-` code's suffix is bounded by `maxSuffix`. -/
theorem codeSuffix_le_maxSuffix (tasks : List TaskRow) (r : TaskRow)
    (hr : r ∈ tasks) (hlike : likeTASK r.code = true) :
    codeSuffix r.code ≤ maxSuffix tasks :=
  codeSuffix_le_foldl tasks 0 r hr hlike

theorem mem_insertIgnore (links : List (Nat × Nat)) (x e : Nat × Nat) :
    e ∈ insertIgnore links x ↔ e ∈ links ∨ e = x := by
  unfold insertIgnore
  by_cases h : x ∈ links
  · rw [if_pos h]
    constructor
    · exact Or.inl
    · rintro (he | he)
      · exact he
      · exact he ▸ h
  · rw [if_neg h]
    simp [List.mem_append]

/-- Membership after the parent-insertion fold of `setTaskRelations`. -/
theorem mem_parentFold (ps : List Nat) (tid : Nat) :
    ∀ (base : List (Nat × Nat)) (e : Nat × Nat),
      e ∈ ps.foldl (fun ls p => if p = tid then ls else insertIgnore ls (p, tid)) base ↔
        e ∈ base ∨ ∃ p, p ∈ ps ∧ p ≠ tid ∧ e = (p, tid) := by
  induction ps with
  | nil => intro base e; simp
  | cons p rest ih =>
    intro base e
    simp only [List.foldl_cons]
    by_cases hp : p = tid
    · rw [if_pos hp, ih base e]
      subst hp
      constructor
      · rintro (h | ⟨q, hq, hqt, he⟩)
        · exact Or.inl h
        · exact Or.inr ⟨q, List.mem_cons_of_mem _ hq, hqt, he⟩
      · rintro (h | ⟨q, hq, hqt, he⟩)
        · exact Or.inl h
        · rcases List.mem_cons.mp hq with h' | h'
          · exact absurd h' hqt
          · exact Or.inr ⟨q, h', hqt, he⟩
    · rw [if_neg hp, ih _ e, mem_insertIgnore]
      constructor
      · rintro ((h | he) | ⟨q, hq, hqt, he⟩)
        · exact Or.inl h
        · exact Or.inr ⟨p, List.mem_cons_self _ _, hp, he⟩
        · exact Or.inr ⟨q, List.mem_cons_of_mem _ hq, hqt, he⟩
      · rintro (h | ⟨q, hq, hqt, he⟩)
        · exact Or.inl (Or.inl h)
        · rcases List.mem_cons.mp hq with h' | h'
          · exact Or.inl (Or.inr (h' ▸ he))
          · exact Or.inr ⟨q, h', hqt, he⟩

/-- After `setTaskRelations … (some ps) none`, the incoming edges of
`taskId` are exactly the non-self entries of `ps` — independently of the
previous incoming edges and of which tasks exist. -/
theorem mem_links_setParents (st : Store) (taskId : Nat) (ps : List Nat) (p : Nat) :
    (p, taskId) ∈ (setTaskRelations st taskId (some ps) none).links ↔
      p ∈ ps ∧ p ≠ taskId := by
  unfold setTaskRelations
  simp only
  rw [mem_parentFold]
  constructor
  · rintro (h | ⟨q, hq, hqt, he⟩)
    · rcases List.mem_filter.mp h with ⟨_, hfalse⟩
      simp at hfalse
    · rcases Prod.mk.injEq .. ▸ he with ⟨h1, _⟩
      obtain ⟨rfl, -⟩ : p = q ∧ taskId = taskId := by
        constructor
        · exact congrArg Prod.fst he
        · rfl
      exact ⟨hq, hqt⟩
  · rintro ⟨hp, hpt⟩
    exact Or.inr ⟨p, hp, hpt, rfl⟩

/-- Outgoing-edge and unrelated-edge preservation of the parents branch:
links whose child is not `taskId` are kept verbatim. -/
theorem mem_links_setParents_other (st : Store) (taskId : Nat) (ps : List Nat)
    (e : Nat × Nat) (he : ¬ e.2 = taskId) :
    (e ∈ (setTaskRelations st taskId (some ps) none).links ↔ e ∈ st.links) := by
  unfold setTaskRelations
  simp only
  rw [mem_parentFold]
  constructor
  · rintro (h | ⟨q, _, _, hq⟩)
    · exact (List.mem_filter.mp h).1
    · exact absurd (congrArg Prod.snd hq) he
  · intro h
    refine Or.inl (List.mem_filter.mpr ⟨h, ?_⟩)
    simp only [decide_eq_true_eq]
    exact he

/-- The loop performs at most `fuel` model invocations. -/
theorem agentLoopAux_count_le (model : ModelStub) (tools : List ToolDef) :
    ∀ fuel msgs, (agentLoopAux model tools fuel msgs).2 ≤ fuel := by
  intro fuel
  induction fuel with
  | zero => intro msgs; exact Nat.le_refl _
  | succ fuel ih =>
    intro msgs
    unfold agentLoopAux
    by_cases h : (model msgs).tool_calls.isEmpty
    · simp only [h, if_pos]
      omega
    · simp only [h]
      simpa using Nat.succ_le_succ (ih _)

/-- A model that always requests tool calls drives the loop to exhaustion:
`fuel` invocations and the fallback reply. -/
theorem agentLoopAux_always_tools (model : ModelStub) (tools : List ToolDef)
    (h : ∀ msgs, (model msgs).tool_calls.isEmpty = false) :
    ∀ fuel msgs, agentLoopAux model tools fuel msgs = (fallbackReply, fuel) := by
  intro fuel
  induction fuel with
  | zero => intro msgs; rfl
  | succ fuel ih =>
    intro msgs
    unfold agentLoopAux
    simp only [h msgs, Bool.false_eq_true, if_false, ih]

/-- Accumulator form of the history expansion. -/
theorem foldl_append_flatten {α β : Type} (f : α → List β) :
    ∀ (l : List α) (acc : List β),
      l.foldl (fun h x => h ++ f x) acc = acc ++ (l.map f).flatten := by
  intro l
  induction l with
  | nil => intro acc; simp
  | cons x rest ih =>
    intro acc
    simp only [List.foldl_cons, List.map_cons, List.flatten_cons, ih, List.append_assoc]

/-! ## Claim theorems -/

/-- Claim C1 (amended): the numeric suffix of each newly issued code is
strictly greater than the suffix of every `TASK-` code *currently stored*
at the time of the create, and the new code differs from every stored
code.  (The claim's stronger "maximum suffix ever issued" reading fails:
see the counterexample, where deleting the maximal-suffix task lets its
code be reissued.) -/
theorem claim_c1_next_code_exceeds_stored (st : Store) (t : TaskFields)
    (r : TaskRow) (hr : r ∈ st.tasks) :
    (likeTASK r.code = true → codeSuffix r.code < codeSuffix (createTask st t).2.code) ∧
    r.code ≠ (createTask st t).2.code := by
  have hnew : (createTask st t).2.code = mkCode (maxSuffix st.tasks + 1) := rfl
  constructor
  · intro hlike
    rw [hnew, codeSuffix_mkCode]
    exact Nat.lt_succ_of_le (codeSuffix_le_maxSuffix st.tasks r hr hlike)
  · intro heq
    by_cases hlike : likeTASK r.code = true
    · have hle := codeSuffix_le_maxSuffix st.tasks r hr hlike
      rw [heq, hnew, codeSuffix_mkCode] at hle
      omega
    · apply hlike
      rw [heq, hnew]
      exact likeTASK_mkCode _

/-- Claim C1 counterexample: create, create, delete the second task (which
holds the maximal suffix), create again — the third create reissues
`TASK-0002`, so the issued codes are neither unique nor strictly
increasing across the whole history. -/
theorem claim_c1_counterexample :
    (runOps emptyStore
      [Op.create samplePayload, Op.create samplePayload, Op.delete 2,
       Op.create samplePayload]).2 = ["TASK-0001", "TASK-0002", "TASK-0002"] ∧
    ¬ List.Nodup (runOps emptyStore
      [Op.create samplePayload, Op.create samplePayload, Op.delete 2,
       Op.create samplePayload]).2 ∧
    ¬ List.Pairwise (fun a b => codeSuffix a < codeSuffix b)
      (runOps emptyStore
        [Op.create samplePayload, Op.create samplePayload, Op.delete 2,
         Op.create samplePayload]).2 :=
  ⟨by decide, by decide, by decide⟩

/-- Claim C1 witness: instantiating the amended theorem at a concrete
store. -/
theorem claim_c1_witness :
    codeSuffix "TASK-0003" < codeSuffix (createTask fixtureStore samplePayload).2.code ∧
    "TASK-0003" ≠ (createTask fixtureStore samplePayload).2.code := by
  have h := claim_c1_next_code_exceeds_stored fixtureStore samplePayload
      { id := 3, type := "task", title := "C", description := "c",
        status := "backlog", code := "TASK-0003", createdAt := 3 }
      (by decide)
  exact ⟨h.1 (by decide), h.2⟩

/-- Claim C2 (confirmed): the loop performs at most 6 model invocations,
and for a model stub that requests tool calls on every step it terminates
after exactly 6 invocations with the fixed fallback reply. -/
theorem claim_c2_step_bound (model : ModelStub) (tools : List ToolDef)
    (history : List BaseMsg) (input : String) :
    (generateTaskAwareReply model tools history input).2 ≤ 6 ∧
    fallbackReply = "Could not complete the request with available tools." ∧
    ((∀ msgs, (model msgs).tool_calls.isEmpty = false) →
      generateTaskAwareReply model tools history input = (fallbackReply, 6)) := by
  refine ⟨agentLoopAux_count_le model tools 6 _, rfl, ?_⟩
  intro h
  exact agentLoopAux_always_tools model tools h 6 _

/-- Claim C2 witness: the always-tool-calling stub against the `list_tasks`
registry exhausts the budget. -/
theorem claim_c2_witness :
    generateTaskAwareReply alwaysToolModel listOnlyTools [] "hi" = (fallbackReply, 6) ∧
    (generateTaskAwareReply alwaysToolModel listOnlyTools [] "hi").2 ≤ 6 := by
  have h := claim_c2_step_bound alwaysToolModel listOnlyTools [] "hi"
  exact ⟨h.2.2 (fun msgs => rfl), h.1⟩

/-- Claim C3 (confirmed): two successive `setTaskRelations` calls with
parent lists `P` then `Pp` leave exactly the non-self entries of `Pp` as
the incoming edge set of the task — a full replace, not a union. -/
theorem claim_c3_parents_full_replace (st : Store) (taskId : Nat)
    (P Pp : List Nat) (p : Nat) :
    ((p, taskId) ∈
        (setTaskRelations (setTaskRelations st taskId (some P) none)
          taskId (some Pp) none).links ↔
      p ∈ Pp ∧ p ≠ taskId) :=
  mem_links_setParents _ taskId Pp p

/-- Claim C4 (confirmed): deleting an absent task fails with the not-found
error; deleting a stored task removes exactly the link edges in which it
appears as parent or child (other edges survive) and removes its row. -/
theorem claim_c4_delete_removes_incident_edges (st : Store) (id : Nat) :
    ((∀ r ∈ st.tasks, r.id ≠ id) → deleteTask st id = Except.error "Task not found") ∧
    (∀ st', deleteTask st id = Except.ok st' →
      (∀ e ∈ st'.links, e.1 ≠ id ∧ e.2 ≠ id) ∧
      (∀ e ∈ st.links, e.1 ≠ id → e.2 ≠ id → e ∈ st'.links) ∧
      (∀ r ∈ st'.tasks, r.id ≠ id)) := by
  constructor
  · intro habs
    unfold deleteTask
    cases hfind : st.tasks.find? (fun r => r.id == id) with
    | none => rfl
    | some r =>
      have hmem := List.mem_of_find?_eq_some hfind
      have hpred := List.find?_some hfind
      simp only [beq_iff_eq] at hpred
      exact absurd hpred (habs r hmem)
  · intro st' hok
    unfold deleteTask at hok
    cases hfind : st.tasks.find? (fun r => r.id == id) with
    | none => rw [hfind] at hok; cases hok
    | some r =>
      rw [hfind] at hok
      injection hok with hok
      subst hok
      refine ⟨?_, ?_, ?_⟩
      · intro e he
        have hf := List.mem_filter.mp he
        simpa [decide_eq_true_eq] using hf.2
      · intro e he h1 h2
        exact List.mem_filter.mpr ⟨he, by simp [h1, h2]⟩
      · intro r' hr'
        have hf := List.mem_filter.mp hr'
        simpa [decide_eq_true_eq] using hf.2

/-- Claim C4 witness: deleting task 1 from the fixture store removes the
edges (1, 2) and (2, 1) and keeps (2, 3); deleting the absent id 5 fails. -/
theorem claim_c4_witness :
    deleteTask fixtureStore 5 = Except.error "Task not found" ∧
    (2, 3) ∈ fixtureStoreDel1.links ∧
    ¬ (1, 2) ∈ fixtureStoreDel1.links ∧
    ¬ (2, 1) ∈ fixtureStoreDel1.links := by
  have habs := (claim_c4_delete_removes_incident_edges fixtureStore 5).1 (by decide)
  have hok : deleteTask fixtureStore 1 = Except.ok fixtureStoreDel1 := rfl
  obtain ⟨hrem, hpres, -⟩ :=
    (claim_c4_delete_removes_incident_edges fixtureStore 1).2 fixtureStoreDel1 hok
  refine ⟨habs, hpres (2, 3) (by decide) (by decide) (by decide), ?_, ?_⟩
  · intro hmem
    exact (hrem (1, 2) hmem).1 rfl
  · intro hmem
    exact (hrem (2, 1) hmem).2 rfl

/-- Claim C5 (amended): `setTaskRelations` performs no existence check on
referenced ids — a supplied non-self parent id is inserted as an edge
whether or not it identifies a stored task (unknown ids become dangling
edges rather than failing with a ValidationError). -/
theorem claim_c5_unknown_ids_inserted (st : Store) (taskId p : Nat) (ps : List Nat) :
    ((p, taskId) ∈ (setTaskRelations st taskId (some ps) none).links ↔
      p ∈ ps ∧ p ≠ taskId) :=
  mem_links_setParents st taskId ps p

/-- Claim C5 counterexample: id 99 identifies no task in the fixture
store, yet `setTaskRelations 1 (parents := [99])` succeeds and stores the
dangling edge (99, 1) instead of failing with a ValidationError. -/
theorem claim_c5_counterexample :
    taskExists fixtureStore 99 = false ∧
    (99, 1) ∈ (setTaskRelations fixtureStore 1 (some [99]) none).links :=
  ⟨by decide, by decide⟩

/-- Claim C6 (confirmed): a requested tool name absent from the registry
yields a "not available" tool-result; a handler that throws yields a
"Tool error: …" tool-result; and whenever a response requests tool calls
the loop proceeds to the next model invocation instead of aborting. -/
theorem claim_c6_tool_errors_recovered (tools : List ToolDef) (call : ToolCall) :
    (tools.find? (fun td => td.name == call.name) = none →
      execToolCall tools call =
        BaseMsg.tool ("Tool " ++ call.name ++ " is not available")
          (call.id.getD "tool-call")) ∧
    (∀ td e, tools.find? (fun td => td.name == call.name) = some td →
      td.func call.args = Except.error e →
      execToolCall tools call =
        BaseMsg.tool ("Tool error: " ++ e) (call.id.getD "tool-call")) ∧
    (∀ (model : ModelStub) (fuel : Nat) (msgs : List BaseMsg),
      (model msgs).tool_calls.isEmpty = false →
      agentLoopAux model tools (fuel + 1) msgs =
        ((agentLoopAux model tools fuel
            (msgs ++ [BaseMsg.ai (model msgs)] ++
              toolResults tools (model msgs).tool_calls)).1,
         (agentLoopAux model tools fuel
            (msgs ++ [BaseMsg.ai (model msgs)] ++
              toolResults tools (model msgs).tool_calls)).2 + 1)) := by
  refine ⟨?_, ?_, ?_⟩
  · intro hnone
    unfold execToolCall
    rw [hnone]
  · intro td e hsome herr
    unfold execToolCall
    simp only [hsome, herr]
  · intro model fuel msgs h
    conv_lhs => unfold agentLoopAux
    simp only [h, Bool.false_eq_true, if_false]

/-- Claim C6 witness: a call to the unregistered tool `nope` and a call to
the throwing tool `boom`, both recovered into tool-result messages. -/
theorem claim_c6_witness :
    execToolCall [] ⟨none, "nope", []⟩ =
      BaseMsg.tool "Tool nope is not available" "tool-call" ∧
    execToolCall [throwingTool] ⟨some "7", "boom", []⟩ =
      BaseMsg.tool "Tool error: kaboom" "7" := by
  have h1 := (claim_c6_tool_errors_recovered [] ⟨none, "nope", []⟩).1 rfl
  have h2 := (claim_c6_tool_errors_recovered [throwingTool] ⟨some "7", "boom", []⟩).2.1
      throwingTool "kaboom" rfl rfl
  exact ⟨h1, h2⟩

/-- Claim C7 (confirmed): a response requesting no tool calls terminates
the loop on that step (one model invocation) and returns its content
verbatim when it is a string, and its `JSON.stringify` serialization when
it is structured. -/
theorem claim_c7_no_tool_calls_terminates (model : ModelStub) (tools : List ToolDef)
    (fuel : Nat) (msgs : List BaseMsg)
    (h : (model msgs).tool_calls.isEmpty = true) :
    agentLoopAux model tools (fuel + 1) msgs = (contentText (model msgs).content, 1) ∧
    (∀ s, (model msgs).content = Content.str s →
      agentLoopAux model tools (fuel + 1) msgs = (s, 1)) ∧
    (∀ j, (model msgs).content = Content.structured j →
      agentLoopAux model tools (fuel + 1) msgs = (jsonStringify j, 1)) := by
  have hmain : agentLoopAux model tools (fuel + 1) msgs =
      (contentText (model msgs).content, 1) := by
    unfold agentLoopAux
    simp only [h, if_true]
  refine ⟨hmain, ?_, ?_⟩
  · intro s hs
    rw [hmain, hs]
    rfl
  · intro j hj
    rw [hmain, hj]
    rfl

/-- Claim C7 witness: a plain-text stub returns its text verbatim in one
step; a structured stub returns the serialized content in one step. -/
theorem claim_c7_witness :
    agentLoopAux plainTextModel [] 6 [] = ("hello", 1) ∧
    agentLoopAux structuredModel [] 6 [] =
      (jsonStringify (Json.obj [("a", Json.num 1)]), 1) := by
  refine ⟨?_, ?_⟩
  · exact (claim_c7_no_tool_calls_terminates plainTextModel [] 5 [] rfl).2.1 "hello" rfl
  · exact (claim_c7_no_tool_calls_terminates structuredModel [] 5 [] rfl).2.2 _ rfl

/-- Claim C8 (confirmed): loading recent history never throws — a failed
store read yields the empty sequence, and a successful read yields the
most recent 10 turns, each expanded into a (user, assistant) message
pair, oldest first. -/
theorem claim_c8_history_loader (e : String) (store : List MsgRow) :
    loadRecentHistory (Except.error e) = [] ∧
    loadRecentHistory (Except.ok store) =
      ((store.drop (store.length - 10)).map
        (fun item => [BaseMsg.human item.userText,
                      BaseMsg.ai ⟨Content.str item.botReply, []⟩])).flatten := by
  constructor
  · rfl
  · show (((store.reverse.take 10).reverse).foldl
      (fun h item =>
        h ++ [BaseMsg.human item.userText, BaseMsg.ai ⟨Content.str item.botReply, []⟩])
      []) = _
    rw [foldl_append_flatten]
    rw [List.nil_append]
    have hr := List.rtake_eq_reverse_take_reverse (l := store) (n := 10)
    rw [List.rtake] at hr
    rw [← hr]

theorem parseType_ok_iff (ty : Option String) :
    (∃ t, parseType ty = Except.ok t) ↔ TASK_TYPES.contains (ty.getD "") = true := by
  unfold parseType
  by_cases hf : isFalsyStr ty = true
  · rw [if_pos hf]
    constructor
    · rintro ⟨t, ht⟩; cases ht
    · intro hc
      exfalso
      cases ty with
      | none => exact absurd hc (by decide)
      | some s =>
        have hs : s = "" := by simpa [isFalsyStr] using hf
        subst hs
        exact absurd hc (by decide)
  · rw [if_neg hf]
    by_cases hc : TASK_TYPES.contains (ty.getD "") = true
    · rw [if_pos hc]
      exact ⟨fun _ => hc, fun _ => ⟨ty.getD "", rfl⟩⟩
    · rw [if_neg hc]
      constructor
      · rintro ⟨t, ht⟩; cases ht
      · intro h; exact absurd h hc

theorem parseDescription_ok_iff (d : Option String) :
    (∃ v, parseDescription d = Except.ok v) ↔ jsTrim (d.getD "") ≠ "" := by
  unfold parseDescription
  cases d with
  | none =>
    simp only [Option.getD]
    constructor
    · rintro ⟨v, hv⟩; cases hv
    · intro h; exact absurd rfl h
  | some s =>
    simp only [Option.getD]
    by_cases he : (jsTrim s == "") = true
    · rw [if_pos he]
      constructor
      · rintro ⟨v, hv⟩; cases hv
      · intro h; exact absurd (by simpa using he) h
    · rw [if_neg he]
      constructor
      · rintro ⟨v, hv⟩
        intro hcon
        exact he (by simp [hcon])
      · intro _; exact ⟨jsTrim s, rfl⟩

theorem parseStatus_backlog_ok_iff (s : Option String) :
    (∃ v, parseStatus s (some "backlog") = Except.ok v) ↔
      (isFalsyStr s = true ∨ TASK_STATUSES.contains (s.getD "") = true) := by
  unfold parseStatus
  by_cases hf : isFalsyStr s = true
  · rw [if_pos hf]
    have : isFalsyStr (some "backlog") = false := by decide
    rw [this]
    simp only [Bool.false_eq_true, if_false]
    exact ⟨fun _ => Or.inl hf, fun _ => ⟨"backlog", rfl⟩⟩
  · rw [if_neg hf]
    by_cases hc : TASK_STATUSES.contains (s.getD "") = true
    · rw [if_pos hc]
      exact ⟨fun _ => Or.inr hc, fun _ => ⟨s.getD "", rfl⟩⟩
    · rw [if_neg hc]
      constructor
      · rintro ⟨v, hv⟩; cases hv
      · rintro (h | h)
        · exact absurd h hf
        · exact absurd h hc

theorem parseStatus_falsy_value (s : Option String) (hf : isFalsyStr s = true) :
    parseStatus s (some "backlog") = Except.ok "backlog" := by
  unfold parseStatus
  rw [if_pos hf]
  have h2 : isFalsyStr (some "backlog") = false := by decide
  rw [h2]
  simp only [Bool.false_eq_true, if_false]
  rfl

/-- Claim C9 (amended): this revision's `TasksService.create` accepts no
title; its validation succeeds exactly when the type is in the allowed
set and the description is non-empty after trimming and any supplied
status is in the allowed set, and an omitted (or empty) status defaults
to the first state of the enumerated set, `'backlog'`.  (The claim's
"exactly when type/title/description" reading fails: a supplied invalid
status is also rejected, and an empty title is not — see the
counterexample.) -/
theorem claim_c9_create_validation (p : CreatePayload) :
    ((∃ v, tasksServiceCreate p = Except.ok v) ↔
      (TASK_TYPES.contains (p.type.getD "") = true ∧
       jsTrim (p.description.getD "") ≠ "" ∧
       (isFalsyStr p.status = true ∨ TASK_STATUSES.contains (p.status.getD "") = true))) ∧
    (∀ v, tasksServiceCreate p = Except.ok v → isFalsyStr p.status = true →
      v.status = TASK_STATUSES.headD "") := by
  constructor
  · constructor
    · rintro ⟨v, hv⟩
      unfold tasksServiceCreate at hv
      cases hT : parseType p.type with
      | error eT => rw [hT] at hv; cases hv
      | ok t =>
        rw [hT] at hv
        cases hD : parseDescription p.description with
        | error eD => rw [hD] at hv; cases hv
        | ok d =>
          rw [hD] at hv
          cases hS : parseStatus p.status (some "backlog") with
          | error eS => rw [hS] at hv; cases hv
          | ok s =>
            exact ⟨(parseType_ok_iff p.type).mp ⟨t, hT⟩,
              (parseDescription_ok_iff p.description).mp ⟨d, hD⟩,
              (parseStatus_backlog_ok_iff p.status).mp ⟨s, hS⟩⟩
    · rintro ⟨hT, hD, hS⟩
      obtain ⟨t, ht⟩ := (parseType_ok_iff p.type).mpr hT
      obtain ⟨d, hd⟩ := (parseDescription_ok_iff p.description).mpr hD
      obtain ⟨s, hs⟩ := (parseStatus_backlog_ok_iff p.status).mpr hS
      refine ⟨⟨t, d, s⟩, ?_⟩
      unfold tasksServiceCreate
      rw [ht, hd, hs]
      rfl
  · intro v hv hf
    unfold tasksServiceCreate at hv
    cases hT : parseType p.type with
    | error eT => rw [hT] at hv; cases hv
    | ok t =>
      rw [hT] at hv
      cases hD : parseDescription p.description with
      | error eD => rw [hD] at hv; cases hv
      | ok d =>
        rw [hD] at hv
        rw [parseStatus_falsy_value p.status hf] at hv
        injection hv with hv
        rw [← hv]
        rfl

/-- Claim C9 counterexample: with an allowed type and a non-blank
description — conditions under which the claim says creation must not
fail — a supplied status outside the allowed set is rejected; and the
payload carries no title at all, so no title check can be the cause. -/
theorem claim_c9_counterexample :
    TASK_TYPES.contains "task" = true ∧
    (jsTrim "x" == "") = false ∧
    tasksServiceCreate ⟨some "task", some "x", some "bogus"⟩ =
      Except.error "Unknown task status: bogus. Allowed: backlog, in_progress, done" :=
  ⟨by decide, by decide, rfl⟩

/-- Claim C9 witness: a concrete create with omitted status defaults to
the first enumerated state. -/
theorem claim_c9_witness :
    tasksServiceCreate ⟨some "task", some " hello ", none⟩ =
      Except.ok ⟨"task", "hello", "backlog"⟩ ∧
    (⟨"task", "hello", "backlog"⟩ : ValidatedCreate).status = TASK_STATUSES.headD "" := by
  have hok : tasksServiceCreate ⟨some "task", some " hello ", none⟩ =
      Except.ok ⟨"task", "hello", "backlog"⟩ := rfl
  exact ⟨hok,
    (claim_c9_create_validation ⟨some "task", some " hello ", none⟩).2 _ hok rfl⟩

/-- Claim C10 (confirmed): blank input (empty after trimming) is rejected
with a client error before the model is consulted — the outcome is the
same for every reply generator and the store is unchanged — and the store
grows only when the generator produced a reply, which is then persisted
as the new turn. -/
theorem claim_c10_blank_message_rejected (gen : String → Except String String)
    (store : List SavedTurn) (text : Option String) :
    (jsTrim (text.getD "") = "" →
      sendMessage gen store text = (store, Except.error "Message text is required") ∧
      (∀ gen2, sendMessage gen2 store text = sendMessage gen store text)) ∧
    ((sendMessage gen store text).1 ≠ store →
      ∃ r, gen (text.getD "") = Except.ok r ∧
        (sendMessage gen store text).1 =
          store ++ [⟨store.length + 1, text.getD "", r⟩]) := by
  constructor
  · intro hblank
    have hb : (jsTrim (text.getD "") == "") = true := by simp [hblank]
    constructor
    · unfold sendMessage
      simp only [hb, if_true]
    · intro gen2
      unfold sendMessage
      simp only [hb, if_true]
  · intro hne
    unfold sendMessage at hne ⊢
    by_cases hb : (jsTrim (text.getD "") == "") = true
    · rw [if_pos hb] at hne
      exact absurd rfl hne
    · rw [if_neg hb] at hne ⊢
      cases hg : gen (text.getD "") with
      | error e =>
        rw [hg] at hne
        exact absurd rfl hne
      | ok r =>
        exact ⟨r, rfl, rfl⟩

/-- Claim C10 witness: whitespace-only input is rejected identically under
a succeeding and a failing generator with nothing persisted; non-blank
input persists exactly the generated turn. -/
theorem claim_c10_witness :
    sendMessage okGen [] (some "   ") = ([], Except.error "Message text is required") ∧
    sendMessage errGen [] (some "   ") = sendMessage okGen [] (some "   ") ∧
    (sendMessage okGen [] (some "hi")).1 = [⟨1, "hi", "r"⟩] := by
  have h := (claim_c10_blank_message_rejected okGen [] (some "   ")).1 (by decide)
  refine ⟨h.1, h.2 errGen, ?_⟩
  obtain ⟨r, hr, h1⟩ :=
    (claim_c10_blank_message_rejected okGen [] (some "hi")).2 (by decide)
  have hr' : r = "r" := by
    have : Except.ok (ε := String) "r" = Except.ok r := hr
    injection this with h2
    exact h2.symm
  rw [h1, hr']
  rfl
